import Mathlib

/-!
Shallow embedding of the GitHub organization dashboard (React/TypeScript).

The embedding covers:
* the language aggregation in `App.tsx` (`languageStats` memo) and the
  per-card aggregation in `RepositoryCard.tsx` (`languageData` memo);
* the two cache-guarded refresh routines: `fetchData` in `App.tsx`
  (repository list, 25-minute TTL) and `fetchAllData` in
  `AdminDashboard.tsx` (pull requests, 5-minute TTL);
* the record assembly in `utils/github.ts` (`fetchOrganizationRepos` and
  the three per-repository auxiliary fetches);
* the local close-update in `AdminDashboard.tsx` (`deletePullRequest`).

Modelling conventions:
* JavaScript numbers are modelled by `ℚ` for arithmetic and `ℤ` for
  timestamps; the single NaN-producing site (`value / total` with
  `total = 0`) is modelled by `Option`: `none` stands for NaN.
* `localStorage` slots are `Option` fields; a stored JSON string is
  modelled by `Cached α`: `Cached.good a` is a payload that parses to `a`,
  `Cached.corrupt` is a payload on which `JSON.parse` throws.
* Network effects are oracles passed as arguments (`Except String α` for a
  fetch that either succeeds or throws with a message).
-/

namespace Dashboard

/-- Model of `Commit` from `types.ts`. -/
structure Commit where
  message : String
  author : String
  date : String
  sha : String
  url : String
deriving DecidableEq, Repr

/-- Model of `Repository` from `types.ts`; the JS object `languages` is modelled as an
association list in key-insertion order. -/
structure Repository where
  name : String
  url : String
  readmeUrl : String
  description : String
  languages : List (String × Nat)
  lastCommit : Option Commit
  readmeContent : Option String
deriving DecidableEq, Repr

/-- Model of `LanguageStats` from `types.ts`; `value = none` models a JS NaN
percentage (0/0 rounded). -/
structure LanguageStat where
  name : String
  value : Option ℤ
  color : String
deriving DecidableEq, Repr

/-! ## Aggregator (`languageStats` memo in `App.tsx`) -/

/-- One step of `stats[lang] = (stats[lang] || 0) + value` on a JS object:
an existing key is updated in place, a new key is appended (JS object key
insertion order). -/
def addLang (stats : List (String × Nat)) (lang : String) (v : Nat) :
    List (String × Nat) :=
  match stats with
  | [] => [(lang, v)]
  | (l, w) :: rest =>
      if l = lang then (l, w + v) :: rest else (l, w) :: addLang rest lang v

/-- The nested `repositories.forEach / Object.entries(repo.languages).forEach`
accumulation in the `languageStats` memo. -/
def accumulate (repos : List Repository) : List (String × Nat) :=
  repos.foldl (fun stats repo =>
    repo.languages.foldl (fun st p => addLang st p.1 p.2) stats) []

/-- Total byte count recorded for language `n` in an association list
(sum over all pairs whose key is `n`). -/
def lookupSum (st : List (String × Nat)) (n : String) : Nat :=
  ((st.filter (fun p => p.1 = n)).map (fun p => p.2)).sum

/-- All `(language, bytes)` pairs of all repositories, in traversal order. -/
def allPairs (repos : List Repository) : List (String × Nat) :=
  (repos.map (fun r => r.languages)).flatten

/-- The grand total of byte counts over all languages and repositories. -/
def grandTotal (repos : List Repository) : Nat :=
  ((allPairs repos).map (fun p => p.2)).sum

/-- JS `Math.round` on an exact rational: round half away from zero is
`⌊q + 1/2⌋` for the non-negative values arising here. -/
def jsRound (q : ℚ) : ℤ :=
  Int.floor (q + 1/2)

/-- Model of `Math.round((value / total) * 100)`; `total = 0` gives `0/0 = NaN` in JS
(byte counts are non-negative, so a zero total forces a zero numerator),
modelled as `none`. -/
def pct (v total : Nat) : Option ℤ :=
  if total = 0 then none else some (jsRound ((v : ℚ) / (total : ℚ) * 100))

/-- The inline conditional color chain in the `languageStats` memo of
`App.tsx`. -/
def colorFor (name : String) : String :=
  if name = "TypeScript" then "#3178c6"
  else if name = "JavaScript" then "#f7df1e"
  else if name = "Python" then "#3776ab"
  else if name = "Java" then "#b07219"
  else if name = "Ruby" then "#701516"
  else if name = "Go" then "#00ADD8"
  else "#6e7681"

/-- The `languageStats` memo of `App.tsx`: accumulate per-language byte
counts, total them, and map each entry to a percentage plus display color. -/
def languageStats (repos : List Repository) : List LanguageStat :=
  let stats := accumulate repos
  let total := (stats.map (fun p => p.2)).sum
  stats.map (fun p => { name := p.1, value := pct p.2 total, color := colorFor p.1 })

/-- The `languageColors` lookup table of `RepositoryCard.tsx`. -/
def languageColors : List (String × String) :=
  [("JavaScript", "#f7df1e"), ("TypeScript", "#3178c6"), ("Python", "#3776ab"),
   ("Java", "#b07219"), ("Ruby", "#701516"), ("Go", "#00ADD8"),
   ("Rust", "#dea584"), ("HTML", "#e34c26"), ("CSS", "#563d7c"),
   ("SCSS", "#c6538c"), ("C", "#555555"), ("C++", "#f34b7d"),
   ("C#", "#178600"), ("PHP", "#4F5D95"), ("Swift", "#ffac45"),
   ("Kotlin", "#F18E33"), ("Dart", "#00B4AB"), ("Shell", "#89e051"),
   ("PowerShell", "#012456"), ("Vue", "#41b883"), ("Svelte", "#ff3e00"),
   ("Lua", "#000080"), ("Perl", "#0298c3"), ("R", "#198CE7"),
   ("Julia", "#a270ba"), ("Haskell", "#5e5086"), ("Elixir", "#6e4a7e"),
   ("Assembly", "#6E4C13"), ("MATLAB", "#e16737"), ("Groovy", "#4298b8"),
   ("Scala", "#c22d40"), ("Objective-C", "#438eff"),
   ("CoffeeScript", "#244776"), ("Clojure", "#db5855"),
   ("Erlang", "#B83998"), ("OCaml", "#3be133"), ("Fortran", "#4d41b1")]

/-- The `languageData` memo of `RepositoryCard.tsx`: per-card percentages
over the language map of one repository. -/
def languageData (languages : List (String × Nat)) : List LanguageStat :=
  let total := (languages.map (fun p => p.2)).sum
  languages.map (fun p =>
    { name := p.1, value := pct p.2 total,
      color := ((languageColors.lookup p.1).getD "#6e7681") })

/-! ## Cache state and the repository-list refresh (`fetchData` in `App.tsx`) -/

/-- A stored serialized payload: `good a` parses to `a`, `corrupt` makes
`JSON.parse` throw. -/
inductive Cached (α : Type) where
  | corrupt : Cached α
  | good (data : α) : Cached α
deriving DecidableEq, Repr

/-- Message carried by the `SyntaxError` that `JSON.parse` throws on a
corrupt payload (`err instanceof Error`, so `err.message` is surfaced). -/
def jsonParseErrorMsg : String := "Unexpected token in JSON"

/-- Constant `CACHE_DURATION = 25 * 60 * 1000` in `App.tsx` (25 minutes). -/
def CACHE_DURATION : ℤ := 25 * 60 * 1000

/-- The two `localStorage` slots used by `App.tsx`: `repoData` and
`lastFetchTime`. -/
structure AppCache where
  repoData : Option (Cached (List Repository))
  lastFetchTime : Option ℤ
deriving DecidableEq, Repr

/-- The `App` component state touched by `fetchData`: the `repositories`
and `error` `useState` slots plus the cache. -/
structure AppState where
  cache : AppCache
  repositories : List Repository
  error : Option String
deriving DecidableEq, Repr

/-- Result of one `fetchData` run: the new state, and whether a network
fetch of the repository list was initiated. -/
structure AppStep where
  state : AppState
  didFetch : Bool
deriving DecidableEq, Repr

/-- The fall-through branch of `fetchData`: `await fetchOrganizationRepos`,
then `setRepositories` and the two cache writes on success, or the `catch`
branch (`setError(err.message)`) on failure. -/
def doFetch (s : AppState) (now : ℤ)
    (fetchResult : Except String (List Repository)) : AppStep :=
  match fetchResult with
  | Except.ok repos =>
      ⟨{ cache := { repoData := some (Cached.good repos), lastFetchTime := some now },
         repositories := repos, error := none }, true⟩
  | Except.error msg => ⟨{ s with error := some msg }, true⟩

/-- Model of `fetchData` in `App.tsx`: clear the error, consult the two cache slots,
use the cached payload when both are present and fresh
(`Date.now() - Number(lastFetchTime) < CACHE_DURATION`), otherwise fall
through to a fresh fetch.  A corrupt payload inside the freshness window
makes `JSON.parse` throw; the surrounding `try/catch` turns that into
`setError`. -/
def fetchData (s : AppState) (now : ℤ)
    (fetchResult : Except String (List Repository)) : AppStep :=
  let s0 : AppState := { s with error := none }
  match s.cache.repoData, s.cache.lastFetchTime with
  | some payload, some t =>
      if now - t < CACHE_DURATION then
        match payload with
        | Cached.good data => ⟨{ s0 with repositories := data }, false⟩
        | Cached.corrupt => ⟨{ s0 with error := some jsonParseErrorMsg }, false⟩
      else doFetch s0 now fetchResult
  | some _, none => doFetch s0 now fetchResult
  | none, _ => doFetch s0 now fetchResult

/-! ## Admin dashboard state and refresh (`AdminDashboard.tsx`) -/

/-- The `PullRequest` shape of `AdminDashboard.tsx`, with the nested
`user.login` and `repository.{name, html_url}` objects flattened. -/
structure PullRequest where
  id : Nat
  number : Nat
  title : String
  userLogin : String
  createdAt : String
  htmlUrl : String
  state : String
  body : String
  repoName : String
  repoHtmlUrl : String
deriving DecidableEq, Repr

/-- The `Repository` shape of `AdminDashboard.tsx` (id, name, html_url). -/
structure AdminRepo where
  id : Nat
  name : String
  htmlUrl : String
deriving DecidableEq, Repr

/-- A raw pull request as returned by the provider, before
`fetchPullRequestsForRepo` overwrites its `repository` field. -/
structure RawPR where
  id : Nat
  number : Nat
  title : String
  userLogin : String
  createdAt : String
  htmlUrl : String
  state : String
  body : String
deriving DecidableEq, Repr

/-- The parsed `allPullRequestsData` payload:
`{ pullRequests, repositories }`. -/
structure PRPayload where
  pullRequests : List PullRequest
  repositories : List AdminRepo
deriving DecidableEq, Repr

/-- The two `localStorage` slots used by `AdminDashboard.tsx`:
`allPullRequestsData` and `prLastFetchTime`. -/
structure AdminCache where
  allPullRequestsData : Option (Cached PRPayload)
  prLastFetchTime : Option ℤ
deriving DecidableEq, Repr

/-- The `AdminDashboard` component state touched by `fetchAllData` and
`deletePullRequest`: the `pullRequests`, `repositories` and `error`
`useState` slots plus the cache. -/
structure AdminState where
  cache : AdminCache
  pullRequests : List PullRequest
  repositories : List AdminRepo
  error : Option String
deriving DecidableEq, Repr

/-- Result of one `fetchAllData` run. -/
structure AdminStep where
  state : AdminState
  didFetch : Bool
deriving DecidableEq, Repr

/-- The hard-coded 5-minute TTL of the pull-request cache
(`5 * 60 * 1000` in `fetchAllData`). -/
def PR_CACHE_DURATION : ℤ := 5 * 60 * 1000

/-- Message thrown by `validateEnvironmentVariables`. -/
def envErrorMsg : String :=
  "Missing required environment variables. Please check your .env file."

/-- Outcome of the `fetchPullRequestsForRepo` call for one repository:
a parsed PR list, a non-ok HTTP response (`console.warn` + `return []`),
or a rejected promise (network error), which makes `Promise.all` reject. -/
inductive PRFetchResult where
  | ok (prs : List RawPR) : PRFetchResult
  | httpFail : PRFetchResult
  | netError (msg : String) : PRFetchResult
deriving DecidableEq, Repr

/-- Model of `prs.map(pr => (..pr with repository))` in
`fetchPullRequestsForRepo`. -/
def shapePR (repo : AdminRepo) (p : RawPR) : PullRequest :=
  { id := p.id, number := p.number, title := p.title, userLogin := p.userLogin,
    createdAt := p.createdAt, htmlUrl := p.htmlUrl, state := p.state,
    body := p.body, repoName := repo.name, repoHtmlUrl := repo.htmlUrl }

/-- First rejection among the per-repository PR fetches; `Promise.all`
rejects with it (modelled deterministically in list order). -/
def firstNetError : List (AdminRepo × PRFetchResult) → Option String
  | [] => none
  | (_, PRFetchResult.netError m) :: _ => some m
  | _ :: rest => firstNetError rest

/-- Model of `allPRs.flat()` over the per-repository results, with non-ok HTTP
responses contributing `[]`. -/
def flattenPRs (l : List (AdminRepo × PRFetchResult)) : List PullRequest :=
  l.flatMap (fun q =>
    match q.2 with
    | PRFetchResult.ok prs => prs.map (shapePR q.1)
    | _ => [])

/-- The fall-through branch of `fetchAllData`: `await fetchRepositories()`
(which calls `setRepositories(data)` on success and rethrows on failure),
then `Promise.all` of the per-repository PR fetches, then
`setPullRequests` and the two cache writes. -/
def adminFetch (s : AdminState) (now : ℤ)
    (repoFetch : Except String (List AdminRepo))
    (prFetch : List PRFetchResult) : AdminStep :=
  match repoFetch with
  | Except.error msg => ⟨{ s with error := some msg }, true⟩
  | Except.ok repos =>
      let s1 : AdminState := { s with repositories := repos }
      let paired := repos.zip prFetch
      match firstNetError paired with
      | some msg => ⟨{ s1 with error := some msg }, true⟩
      | none =>
          let flattened := flattenPRs paired
          ⟨{ s1 with
             pullRequests := flattened,
             cache := { allPullRequestsData := some (Cached.good ⟨flattened, repos⟩),
                        prLastFetchTime := some now } }, true⟩

/-- Model of `fetchAllData` in `AdminDashboard.tsx`: clear the error, validate the
environment variables (throwing aborts the run), consult the two cache
slots with the 5-minute TTL, use the cached payload when fresh, otherwise
fall through to the repository + pull-request fetch. -/
def fetchAllData (s : AdminState) (envOk : Bool) (now : ℤ)
    (repoFetch : Except String (List AdminRepo))
    (prFetch : List PRFetchResult) : AdminStep :=
  let s0 : AdminState := { s with error := none }
  if envOk = false then ⟨{ s0 with error := some envErrorMsg }, false⟩
  else
    match s.cache.allPullRequestsData, s.cache.prLastFetchTime with
    | some payload, some t =>
        if now - t < PR_CACHE_DURATION then
          match payload with
          | Cached.good p =>
              ⟨{ s0 with
                 pullRequests := p.pullRequests,
                 repositories := p.repositories }, false⟩
          | Cached.corrupt => ⟨{ s0 with error := some jsonParseErrorMsg }, false⟩
        else adminFetch s0 now repoFetch prFetch
    | some _, none => adminFetch s0 now repoFetch prFetch
    | none, _ => adminFetch s0 now repoFetch prFetch

/-- The local close-update inside `deletePullRequest`: map every PR whose
`number` and `repository.name` match to the closed state. -/
def closeUpdate (prNumber : Nat) (repoName : String)
    (prs : List PullRequest) : List PullRequest :=
  prs.map (fun pr =>
    if pr.number = prNumber ∧ pr.repoName = repoName
    then { pr with state := "closed" } else pr)

/-- Model of `deletePullRequest` in `AdminDashboard.tsx`, after the PATCH response
(`resp`): on a non-ok response, throw and `setError`; on success, apply the
local close-update to the displayed list and rewrite the cached
payload `pullRequests` field (spreading the freshly re-read cached object).  A
corrupt cached payload makes the re-read `JSON.parse` throw after the
displayed list was already updated; an absent slot parses as `{}` and the
written object carries no `repositories` key (modelled as `[]`). -/
def deletePullRequest (s : AdminState) (prNumber : Nat) (repoName : String)
    (resp : Except String Unit) : AdminState :=
  match resp with
  | Except.error msg => { s with error := some msg }
  | Except.ok _ =>
      let updated := closeUpdate prNumber repoName s.pullRequests
      match s.cache.allPullRequestsData with
      | some Cached.corrupt =>
          { s with pullRequests := updated, error := some jsonParseErrorMsg }
      | some (Cached.good p) =>
          { s with
            pullRequests := updated,
            cache := { s.cache with
              allPullRequestsData := some (Cached.good { p with pullRequests := updated }) } }
      | none =>
          { s with
            pullRequests := updated,
            cache := { s.cache with
              allPullRequestsData := some (Cached.good ⟨updated, []⟩) } }

/-! ## Record assembly in `utils/github.ts` -/

/-- Outcome of one auxiliary HTTP fetch: a parsed body, a non-ok HTTP
response, or a rejected promise. -/
inductive FetchResult (α : Type) where
  | ok (a : α) : FetchResult α
  | httpError (code : Nat) : FetchResult α
  | netError (msg : String) : FetchResult α
deriving DecidableEq, Repr

/-- Whether an auxiliary fetch failed (non-ok response or rejection). -/
def FetchResult.failed : FetchResult α → Bool
  | FetchResult.ok _ => false
  | _ => true

/-- The fields of a raw repository object that `fetchOrganizationRepos`
reads (`name`, `html_url`, `full_name`, `description`). -/
structure RawRepo where
  name : String
  fullName : String
  htmlUrl : String
  description : Option String
deriving DecidableEq, Repr

/-- The fields of a raw commit object that `fetchLastCommit` reads. -/
structure RawCommit where
  message : String
  authorName : String
  authorDate : String
  sha : String
  htmlUrl : String
deriving DecidableEq, Repr

/-- Model of `fetchRepoLanguages`: parsed language map on success, an empty map on any
failure (`console.warn` + `return {}` / `catch` + `return {}`). -/
def fetchRepoLanguages (r : FetchResult (List (String × Nat))) :
    List (String × Nat) :=
  match r with
  | FetchResult.ok langs => langs
  | _ => []

/-- Model of `fetchLastCommit`: shape the first commit of the page, `undefined` on
an empty commit list or any failure. -/
def fetchLastCommit (r : FetchResult (List RawCommit)) : Option Commit :=
  match r with
  | FetchResult.ok [] => none
  | FetchResult.ok (c :: _) =>
      some { message := c.message, author := c.authorName,
             date := c.authorDate, sha := c.sha, url := c.htmlUrl }
  | _ => none

/-- The split/slice/join expression in `fetchReadmeContent` that keeps the
first four lines. -/
def firstFourLines (content : String) : String :=
  String.intercalate "\x0a" ((content.splitOn "\x0a").take 4)

/-- Model of `fetchReadmeContent`: first four lines of the raw README on success,
`null` on any failure (`console.warn` + `return null`). -/
def fetchReadmeContent (r : FetchResult String) : Option String :=
  match r with
  | FetchResult.ok content => some (firstFourLines content)
  | _ => none

/-- The auxiliary fetch results joined by `Promise.all` for one
repository. -/
structure AuxResults where
  languages : FetchResult (List (String × Nat))
  commits : FetchResult (List RawCommit)
  readme : FetchResult String
deriving DecidableEq, Repr

/-- The per-repository record built inside `fetchOrganizationRepos`. -/
def buildRepoRecord (raw : RawRepo) (aux : AuxResults) : Repository :=
  { name := raw.name, url := raw.htmlUrl,
    readmeUrl := raw.htmlUrl ++ "#readme",
    description := raw.description.getD "No description provided",
    languages := fetchRepoLanguages aux.languages,
    lastCommit := fetchLastCommit aux.commits,
    readmeContent := fetchReadmeContent aux.readme }

/-- Model of `fetchOrganizationRepos`: a top-level listing failure throws; on
success, every listed repository is mapped to a record via the three
auxiliary fetches. -/
def fetchOrganizationRepos
    (listing : Except String (List (RawRepo × AuxResults))) :
    Except String (List Repository) :=
  match listing with
  | Except.error msg => Except.error msg
  | Except.ok repos => Except.ok (repos.map (fun q => buildRepoRecord q.1 q.2))

/-! ## Lemmas about the accumulation -/

/-- Keys of an association list, in order. -/
def langKeys (st : List (String × Nat)) : List String :=
  st.map (fun p => p.1)

/-- Folding `addLang` over a list of pairs, starting from `st`. -/
def foldPairs (st : List (String × Nat)) (pairs : List (String × Nat)) :
    List (String × Nat) :=
  pairs.foldl (fun acc p => addLang acc p.1 p.2) st

theorem lookupSum_nil (n : String) : lookupSum [] n = 0 := rfl

theorem lookupSum_cons (p : String × Nat) (st : List (String × Nat)) (n : String) :
    lookupSum (p :: st) n = (if p.1 = n then p.2 else 0) + lookupSum st n := by
  by_cases h : p.1 = n <;> simp [lookupSum, List.filter_cons, h]

theorem addLang_lookupSum (st : List (String × Nat)) (l : String) (v : Nat)
    (n : String) :
    lookupSum (addLang st l v) n = lookupSum st n + (if l = n then v else 0) := by
  induction st with
  | nil =>
      by_cases h : l = n <;> simp [addLang, lookupSum, List.filter_cons, h]
  | cons q rest ih =>
      by_cases hq : q.1 = l
      · by_cases h : l = n <;>
          simp [addLang, hq, lookupSum_cons, h]
        omega
      · simp only [addLang, hq, if_false, lookupSum_cons, ih]
        omega

theorem addLang_langKeys (st : List (String × Nat)) (l : String) (v : Nat) :
    langKeys (addLang st l v) =
      if l ∈ langKeys st then langKeys st else langKeys st ++ [l] := by
  induction st with
  | nil => simp [addLang, langKeys]
  | cons q rest ih =>
      obtain ⟨a, w⟩ := q
      by_cases hq : a = l
      · simp [addLang, hq, langKeys]
      · have hne : ¬ l = a := fun h => hq h.symm
        simp only [addLang, if_neg hq, langKeys, List.map_cons]
        have ih' : List.map (fun p => p.1) (addLang rest l v) =
            if l ∈ List.map (fun p => p.1) rest then List.map (fun p => p.1) rest
            else List.map (fun p => p.1) rest ++ [l] := ih
        rw [ih']
        by_cases hmem : l ∈ List.map (fun p => p.1) rest
        · simp [hmem, hne]
        · simp [hmem, hne]

theorem addLang_langKeys_nodup (st : List (String × Nat)) (l : String) (v : Nat)
    (h : (langKeys st).Nodup) : (langKeys (addLang st l v)).Nodup := by
  rw [addLang_langKeys]
  by_cases hmem : l ∈ langKeys st
  · simpa [hmem] using h
  · simp only [hmem, if_false]
    simp [List.nodup_append, h, hmem]

theorem addLang_mem_langKeys (st : List (String × Nat)) (l : String) (v : Nat)
    (n : String) :
    n ∈ langKeys (addLang st l v) ↔ n ∈ langKeys st ∨ n = l := by
  rw [addLang_langKeys]
  by_cases hmem : l ∈ langKeys st
  · simp only [hmem, if_true]
    constructor
    · exact fun h => Or.inl h
    · rintro (h | rfl)
      · exact h
      · exact hmem
  · simp [hmem]

theorem addLang_valueSum (st : List (String × Nat)) (l : String) (v : Nat) :
    ((addLang st l v).map (fun p => p.2)).sum =
      (st.map (fun p => p.2)).sum + v := by
  induction st with
  | nil => simp [addLang]
  | cons q rest ih =>
      by_cases hq : q.1 = l <;> simp [addLang, hq, ih] <;> omega

theorem foldPairs_lookupSum (pairs : List (String × Nat))
    (st : List (String × Nat)) (n : String) :
    lookupSum (foldPairs st pairs) n = lookupSum st n + lookupSum pairs n := by
  induction pairs generalizing st with
  | nil => simp [foldPairs, lookupSum]
  | cons p rest ih =>
      simp only [foldPairs, List.foldl_cons] at *
      rw [ih, addLang_lookupSum, lookupSum_cons]
      omega

theorem foldPairs_langKeys_nodup (pairs : List (String × Nat))
    (st : List (String × Nat)) (h : (langKeys st).Nodup) :
    (langKeys (foldPairs st pairs)).Nodup := by
  induction pairs generalizing st with
  | nil => simpa [foldPairs]
  | cons p rest ih =>
      simp only [foldPairs, List.foldl_cons] at *
      exact ih _ (addLang_langKeys_nodup _ _ _ h)

theorem foldPairs_mem_langKeys (pairs : List (String × Nat))
    (st : List (String × Nat)) (n : String) :
    n ∈ langKeys (foldPairs st pairs) ↔
      n ∈ langKeys st ∨ n ∈ langKeys pairs := by
  induction pairs generalizing st with
  | nil => simp [foldPairs, langKeys]
  | cons p rest ih =>
      simp only [foldPairs, List.foldl_cons] at *
      rw [ih, addLang_mem_langKeys]
      simp [langKeys]
      tauto

theorem foldPairs_valueSum (pairs : List (String × Nat))
    (st : List (String × Nat)) :
    ((foldPairs st pairs).map (fun p => p.2)).sum =
      (st.map (fun p => p.2)).sum + (pairs.map (fun p => p.2)).sum := by
  induction pairs generalizing st with
  | nil => simp [foldPairs]
  | cons p rest ih =>
      simp only [foldPairs, List.foldl_cons] at *
      rw [ih, addLang_valueSum]
      simp only [List.map_cons, List.sum_cons]
      omega

theorem accumulate_eq_foldPairs (repos : List Repository) :
    accumulate repos = foldPairs [] (allPairs repos) := by
  suffices h : ∀ (rs : List Repository) (st : List (String × Nat)),
      rs.foldl (fun stats repo =>
        repo.languages.foldl (fun acc p => addLang acc p.1 p.2) stats) st =
      foldPairs st ((rs.map (fun r => r.languages)).flatten) by
    simpa [accumulate, allPairs] using h repos []
  intro rs
  induction rs with
  | nil => intro st; simp [foldPairs]
  | cons r rest ih =>
      intro st
      simp only [List.foldl_cons, List.map_cons, List.flatten_cons]
      rw [ih, foldPairs, foldPairs, List.foldl_append]

theorem accumulate_lookupSum (repos : List Repository) (n : String) :
    lookupSum (accumulate repos) n = lookupSum (allPairs repos) n := by
  rw [accumulate_eq_foldPairs, foldPairs_lookupSum, lookupSum_nil, Nat.zero_add]

theorem accumulate_langKeys_nodup (repos : List Repository) :
    (langKeys (accumulate repos)).Nodup := by
  rw [accumulate_eq_foldPairs]
  exact foldPairs_langKeys_nodup _ _ (by simp [langKeys])

theorem accumulate_mem_langKeys (repos : List Repository) (n : String) :
    n ∈ langKeys (accumulate repos) ↔ n ∈ langKeys (allPairs repos) := by
  rw [accumulate_eq_foldPairs, foldPairs_mem_langKeys]
  simp [langKeys]

theorem accumulate_valueSum (repos : List Repository) :
    ((accumulate repos).map (fun p => p.2)).sum = grandTotal repos := by
  rw [accumulate_eq_foldPairs, foldPairs_valueSum]
  simp [grandTotal]

theorem lookupSum_eq_zero_of_not_mem (st : List (String × Nat)) (n : String)
    (h : n ∉ langKeys st) : lookupSum st n = 0 := by
  induction st with
  | nil => rfl
  | cons q rest ih =>
      simp only [langKeys, List.map_cons, List.mem_cons] at h
      push_neg at h
      have h2 : n ∉ langKeys rest := by simpa [langKeys] using h.2
      rw [lookupSum_cons, if_neg (fun hh => h.1 hh.symm), ih h2]

theorem lookupSum_of_mem_nodup (st : List (String × Nat)) (n : String) (v : Nat)
    (hnd : (langKeys st).Nodup) (hmem : (n, v) ∈ st) : lookupSum st n = v := by
  induction st with
  | nil => simp at hmem
  | cons q rest ih =>
      simp only [langKeys, List.map_cons, List.nodup_cons] at hnd
      rcases List.mem_cons.mp hmem with h | h
      · subst h
        rw [lookupSum_cons]
        simp [lookupSum_eq_zero_of_not_mem rest n (by simpa [langKeys] using hnd.1)]
      · have hq : q.1 ≠ n := by
          intro hqn
          exact hnd.1 (hqn ▸ (by simpa [langKeys] using List.mem_map_of_mem (fun p => p.1) h))
        rw [lookupSum_cons, if_neg hq, Nat.zero_add]
        exact ih (by simpa [langKeys] using hnd.2) h

/-! ## Lemmas about rounding and percentage shares -/

theorem jsRound_abs_le (q : ℚ) : |(jsRound q : ℚ) - q| ≤ 1/2 := by
  have h1 : ((jsRound q : ℤ) : ℚ) ≤ q + 1/2 := Int.floor_le _
  have h2 : q + 1/2 - 1 < ((jsRound q : ℤ) : ℚ) := Int.sub_one_lt_floor _
  rw [abs_le]
  constructor <;> [linarith; linarith]

theorem sum_map_mul_const (l : List (String × Nat)) (c : ℚ) :
    (l.map (fun p => (p.2 : ℚ) * c)).sum = ((l.map (fun p => p.2)).sum : ℚ) * c := by
  induction l with
  | nil => simp
  | cons p rest ih =>
      simp only [List.map_cons, List.sum_cons, ih]
      ring_nf

theorem sum_shares (l : List (String × Nat)) (T : ℚ) (hT : T ≠ 0)
    (hsum : ((l.map (fun p => p.2)).sum : ℚ) = T) :
    (l.map (fun p => (p.2 : ℚ) / T * 100)).sum = 100 := by
  have hfun : (fun p : String × Nat => (p.2 : ℚ) / T * 100) =
      fun p : String × Nat => (p.2 : ℚ) * (100 / T) := by
    funext p
    ring
  rw [hfun, sum_map_mul_const, hsum]
  field_simp

theorem sum_jsRound_bound (l : List ℚ) :
    |(l.map (fun q => (jsRound q : ℚ))).sum - l.sum| ≤ l.length * (1/2) := by
  induction l with
  | nil => simp
  | cons q rest ih =>
      simp only [List.map_cons, List.sum_cons, List.length_cons]
      have hq := jsRound_abs_le q
      have step :
          |((jsRound q : ℚ) + (rest.map (fun x => (jsRound x : ℚ))).sum - (q + rest.sum))| =
          |(((jsRound q : ℚ) - q) + ((rest.map (fun x => (jsRound x : ℚ))).sum - rest.sum))| := by
        ring_nf
      rw [step]
      calc |(((jsRound q : ℚ) - q) + ((rest.map (fun x => (jsRound x : ℚ))).sum - rest.sum))|
          ≤ |((jsRound q : ℚ) - q)| + |((rest.map (fun x => (jsRound x : ℚ))).sum - rest.sum)| :=
            abs_add _ _
        _ ≤ 1/2 + rest.length * (1/2) := add_le_add hq ih
        _ = (rest.length + 1) * (1/2) := by ring
        _ = ((rest.length + 1 : Nat) : ℚ) * (1/2) := by push_cast; ring

/-- The per-entry value of `languageStats` as the code computes it, given a
positive grand total. -/
theorem languageStats_entry (repos : List Repository)
    (hT : 0 < grandTotal repos) (e : LanguageStat)
    (he : e ∈ languageStats repos) :
    ∃ p ∈ accumulate repos, e.name = p.1 ∧ e.color = colorFor p.1 ∧
      p.2 = lookupSum (allPairs repos) p.1 ∧
      e.value = some (jsRound ((p.2 : ℚ) / (grandTotal repos : ℚ) * 100)) := by
  have htot : ((accumulate repos).map (fun p => p.2)).sum = grandTotal repos :=
    accumulate_valueSum repos
  simp only [languageStats, List.mem_map] at he
  obtain ⟨p, hp, hpe⟩ := he
  refine ⟨p, hp, ?_, ?_, ?_, ?_⟩
  · rw [← hpe]
  · rw [← hpe]
  · have := lookupSum_of_mem_nodup (accumulate repos) p.1 p.2
      (accumulate_langKeys_nodup repos) (by simpa using hp)
    rw [← this, accumulate_lookupSum]
  · rw [← hpe]
    simp only [htot, pct, if_neg (Nat.pos_iff_ne_zero.mp hT)]

/-! ## Sample inputs used by the witnesses -/

/-- A repository whose only language entry is `A: 100`. -/
def sampleRepoA : Repository :=
  { name := "repo-a", url := "ua", readmeUrl := "ua#readme", description := "da",
    languages := [("A", 100)], lastCommit := none, readmeContent := none }

/-- A repository whose only language entry is `B: 100`. -/
def sampleRepoB : Repository :=
  { name := "repo-b", url := "ub", readmeUrl := "ub#readme", description := "db",
    languages := [("B", 100)], lastCommit := none, readmeContent := none }

/-- A repository with languages `A: 50, B: 50`. -/
def sampleRepoAB : Repository :=
  { name := "repo-ab", url := "uc", readmeUrl := "uc#readme", description := "dc",
    languages := [("A", 50), ("B", 50)], lastCommit := none, readmeContent := none }

/-- A repository whose only language entry has a zero byte count. -/
def zeroByteRepo : Repository :=
  { name := "empty-repo", url := "uz", readmeUrl := "uz#readme", description := "dz",
    languages := [("A", 0)], lastCommit := none, readmeContent := none }

/-! ## Claims about the Aggregator -/

/-- C3: for every repository sequence with a positive grand total of byte
counts, `languageStats` returns exactly one entry per distinct language
name (names are `Nodup` and cover exactly the names occurring in the
input), the percentage of each entry equals
`round(100 × languageTotal / grandTotal)`, and the color of each entry comes
from the fixed lookup with `#6e7681` as the default. -/
theorem c3_aggregate_per_language (repos : List Repository)
    (hT : 0 < grandTotal repos) :
    ((languageStats repos).map (fun e => e.name)).Nodup ∧
    (∀ n, n ∈ (languageStats repos).map (fun e => e.name) ↔
        n ∈ (allPairs repos).map (fun p => p.1)) ∧
    (∀ e ∈ languageStats repos,
        e.value = some (jsRound
          (100 * (lookupSum (allPairs repos) e.name : ℚ) / (grandTotal repos : ℚ))) ∧
        e.color = colorFor e.name) := by
  have hnames : (languageStats repos).map (fun e => e.name) =
      langKeys (accumulate repos) := by
    simp [languageStats, langKeys, List.map_map, Function.comp]
  refine ⟨?_, ?_, ?_⟩
  · rw [hnames]
    exact accumulate_langKeys_nodup repos
  · intro n
    rw [hnames]
    simpa [langKeys] using accumulate_mem_langKeys repos n
  · intro e he
    obtain ⟨p, hp, hname, hcolor, hlk, hval⟩ :=
      languageStats_entry repos hT e he
    constructor
    · rw [hval, hname, ← hlk]
      congr 1
      ring_nf
    · rw [hcolor, hname]

/-- Witness for C3 at the example from the spec: `[[A:100]], [[B:100]]`. -/
theorem c3_aggregate_per_language_witness :
    ((languageStats [sampleRepoA, sampleRepoB]).map (fun e => e.name)).Nodup ∧
    (∀ n, n ∈ (languageStats [sampleRepoA, sampleRepoB]).map (fun e => e.name) ↔
        n ∈ (allPairs [sampleRepoA, sampleRepoB]).map (fun p => p.1)) ∧
    (∀ e ∈ languageStats [sampleRepoA, sampleRepoB],
        e.value = some (jsRound
          (100 * (lookupSum (allPairs [sampleRepoA, sampleRepoB]) e.name : ℚ) /
            (grandTotal [sampleRepoA, sampleRepoB] : ℚ))) ∧
        e.color = colorFor e.name) :=
  c3_aggregate_per_language [sampleRepoA, sampleRepoB] (by decide)

/-- C4: with a positive grand total, the exact shares sum to exactly 100,
every rounded entry is within 1/2 of its exact share, and the sum of the
rounded percentages is within `k/2` of 100 for `k` output entries; the
entries carry the independently rounded values with no post-hoc
correction. -/
theorem c4_share_rounding_bounds (repos : List Repository)
    (hT : 0 < grandTotal repos) :
    (((accumulate repos).map
        (fun p => (p.2 : ℚ) / (grandTotal repos : ℚ) * 100)).sum = 100) ∧
    (∀ e ∈ languageStats repos, ∃ r : ℤ, e.value = some r ∧
        |(r : ℚ) - (lookupSum (allPairs repos) e.name : ℚ) /
          (grandTotal repos : ℚ) * 100| ≤ 1/2) ∧
    |((languageStats repos).map (fun e => ((e.value.getD 0 : ℤ) : ℚ))).sum - 100| ≤
        (languageStats repos).length * (1/2) := by
  have hTne : (grandTotal repos : ℚ) ≠ 0 := by
    exact_mod_cast Nat.pos_iff_ne_zero.mp hT
  have hsum : (((accumulate repos).map (fun p => p.2)).sum : ℚ) =
      (grandTotal repos : ℚ) := by
    have h0 := congrArg (fun n : ℕ => (n : ℚ)) (accumulate_valueSum repos)
    simpa [Nat.cast_list_sum, List.map_map, Function.comp] using h0
  have hshares := sum_shares (accumulate repos) (grandTotal repos : ℚ) hTne hsum
  refine ⟨hshares, ?_, ?_⟩
  · intro e he
    obtain ⟨p, hp, hname, hcolor, hlk, hval⟩ :=
      languageStats_entry repos hT e he
    refine ⟨jsRound ((p.2 : ℚ) / (grandTotal repos : ℚ) * 100), hval, ?_⟩
    rw [hname, ← hlk]
    exact jsRound_abs_le _
  · have htot := accumulate_valueSum repos
    have hmap : (languageStats repos).map (fun e => ((e.value.getD 0 : ℤ) : ℚ)) =
        ((accumulate repos).map
          (fun p => (p.2 : ℚ) / (grandTotal repos : ℚ) * 100)).map
          (fun q => (jsRound q : ℚ)) := by
      simp only [languageStats, List.map_map]
      refine List.map_congr_left ?_
      intro p hp
      simp [Function.comp, pct, htot, Nat.pos_iff_ne_zero.mp hT]
    have hlen : (languageStats repos).length =
        ((accumulate repos).map
          (fun p => (p.2 : ℚ) / (grandTotal repos : ℚ) * 100)).length := by
      simp [languageStats]
    rw [hmap, hlen]
    have := sum_jsRound_bound
      ((accumulate repos).map (fun p => (p.2 : ℚ) / (grandTotal repos : ℚ) * 100))
    rwa [hshares] at this

/-- Witness for C4 at the example from the spec: `A: 50, B: 50`. -/
theorem c4_share_rounding_bounds_witness :
    (((accumulate [sampleRepoAB]).map
        (fun p => (p.2 : ℚ) / (grandTotal [sampleRepoAB] : ℚ) * 100)).sum = 100) ∧
    (∀ e ∈ languageStats [sampleRepoAB], ∃ r : ℤ, e.value = some r ∧
        |(r : ℚ) - (lookupSum (allPairs [sampleRepoAB]) e.name : ℚ) /
          (grandTotal [sampleRepoAB] : ℚ) * 100| ≤ 1/2) ∧
    |((languageStats [sampleRepoAB]).map
        (fun e => ((e.value.getD 0 : ℤ) : ℚ))).sum - 100| ≤
        (languageStats [sampleRepoAB]).length * (1/2) :=
  c4_share_rounding_bounds [sampleRepoAB] (by decide)

/-- C5: aggregation over the empty repository sequence is the empty
sequence (and in particular does not fault on the zero grand total). -/
theorem c5_aggregate_empty : languageStats [] = [] := rfl

/-- C9: on a non-empty input whose byte counts are all zero, the division
by the zero grand total is unguarded, so the percentage of the output entry is
NaN (modelled as `none`), not a number in 0..100 — both in the
organization-wide `languageStats` and in the per-card `languageData`. -/
theorem c9_zero_total_nan :
    languageStats [zeroByteRepo] =
      [{ name := "A", value := none, color := "#6e7681" }] ∧
    languageData [("A", 0)] =
      [{ name := "A", value := none, color := "#6e7681" }] := by
  constructor
  · simp [languageStats, accumulate, addLang, zeroByteRepo, pct, colorFor]
  · decide

/-! ## Lemmas about the two cache-guarded refreshes -/

theorem doFetch_didFetch (s : AppState) (now : ℤ)
    (fr : Except String (List Repository)) : (doFetch s now fr).didFetch = true := by
  cases fr <;> rfl

theorem adminFetch_didFetch (s : AdminState) (now : ℤ)
    (rf : Except String (List AdminRepo)) (pf : List PRFetchResult) :
    (adminFetch s now rf pf).didFetch = true := by
  cases rf with
  | error msg => rfl
  | ok repos =>
      simp only [adminFetch]
      cases firstNetError (repos.zip pf) <;> rfl

/-- Running `fetchData` with a parseable stored entry: fresh uses the cache,
stale falls through. -/
theorem fetchData_good_entry (s : AppState) (now t : ℤ)
    (data : List Repository) (fr : Except String (List Repository))
    (h1 : s.cache.repoData = some (Cached.good data))
    (h2 : s.cache.lastFetchTime = some t) :
    fetchData s now fr =
      if now - t < CACHE_DURATION
      then ⟨{ s with error := none, repositories := data }, false⟩
      else doFetch { s with error := none } now fr := by
  by_cases hf : now - t < CACHE_DURATION <;> simp [fetchData, h1, h2, hf]

/-- Running `fetchData` with an unparseable stored entry: fresh surfaces the parse
error with no fetch, stale falls through without parsing. -/
theorem fetchData_corrupt_entry (s : AppState) (now t : ℤ)
    (fr : Except String (List Repository))
    (h1 : s.cache.repoData = some Cached.corrupt)
    (h2 : s.cache.lastFetchTime = some t) :
    fetchData s now fr =
      if now - t < CACHE_DURATION
      then ⟨{ s with error := some jsonParseErrorMsg }, false⟩
      else doFetch { s with error := none } now fr := by
  by_cases hf : now - t < CACHE_DURATION <;> simp [fetchData, h1, h2, hf]

/-- Whenever a `fetchData` run reports a fetch, it is exactly the
fall-through fetch from the error-cleared state. -/
theorem fetchData_to_doFetch (s : AppState) (now : ℤ)
    (fr : Except String (List Repository))
    (h : (fetchData s now fr).didFetch = true) :
    fetchData s now fr = doFetch { s with error := none } now fr := by
  cases hrd : s.cache.repoData with
  | none => simp [fetchData, hrd]
  | some payload =>
      cases hlt : s.cache.lastFetchTime with
      | none => simp [fetchData, hrd, hlt]
      | some t =>
          by_cases hf : now - t < CACHE_DURATION
          · cases payload <;> simp [fetchData, hrd, hlt, hf] at h
          · simp [fetchData, hrd, hlt, hf]

/-- Running `fetchAllData` with a parseable stored entry (environment variables
present): fresh uses the cache, stale falls through. -/
theorem fetchAllData_good_entry (s : AdminState) (now t : ℤ) (p : PRPayload)
    (rf : Except String (List AdminRepo)) (pf : List PRFetchResult)
    (h1 : s.cache.allPullRequestsData = some (Cached.good p))
    (h2 : s.cache.prLastFetchTime = some t) :
    fetchAllData s true now rf pf =
      if now - t < PR_CACHE_DURATION
      then ⟨{ s with
              error := none,
              pullRequests := p.pullRequests,
              repositories := p.repositories }, false⟩
      else adminFetch { s with error := none } now rf pf := by
  by_cases hf : now - t < PR_CACHE_DURATION <;> simp [fetchAllData, h1, h2, hf]

/-- Running `fetchAllData` with an unparseable stored entry: fresh surfaces the
parse error with no fetch, stale falls through without parsing. -/
theorem fetchAllData_corrupt_entry (s : AdminState) (now t : ℤ)
    (rf : Except String (List AdminRepo)) (pf : List PRFetchResult)
    (h1 : s.cache.allPullRequestsData = some Cached.corrupt)
    (h2 : s.cache.prLastFetchTime = some t) :
    fetchAllData s true now rf pf =
      if now - t < PR_CACHE_DURATION
      then ⟨{ s with error := some jsonParseErrorMsg }, false⟩
      else adminFetch { s with error := none } now rf pf := by
  by_cases hf : now - t < PR_CACHE_DURATION <;> simp [fetchAllData, h1, h2, hf]

/-- Whenever a `fetchAllData` run reports a fetch, it is exactly the
fall-through fetch from the error-cleared state. -/
theorem fetchAllData_to_adminFetch (s : AdminState) (envOk : Bool) (now : ℤ)
    (rf : Except String (List AdminRepo)) (pf : List PRFetchResult)
    (h : (fetchAllData s envOk now rf pf).didFetch = true) :
    fetchAllData s envOk now rf pf = adminFetch { s with error := none } now rf pf := by
  cases envOk with
  | false => simp [fetchAllData] at h
  | true =>
      cases hrd : s.cache.allPullRequestsData with
      | none => simp [fetchAllData, hrd]
      | some payload =>
          cases hlt : s.cache.prLastFetchTime with
          | none => simp [fetchAllData, hrd, hlt]
          | some t =>
              by_cases hf : now - t < PR_CACHE_DURATION
              · cases payload <;> simp [fetchAllData, hrd, hlt, hf] at h
              · simp [fetchAllData, hrd, hlt, hf]

/-! ## Claims about the Freshness Cache -/

/-- C1: for a stored cache entry (parseable payload and timestamp both
present), the cached payload is used and no fresh fetch occurs exactly when
`now - capturedAt < TTL` (strict); at `now - capturedAt ≥ TTL` a fresh
fetch is performed.  Stated for both instances: the repository-list cache
with `CACHE_DURATION` (25 minutes) and the pull-request cache with
`PR_CACHE_DURATION` (5 minutes). -/
theorem c1_cache_freshness
    (sA : AppState) (sP : AdminState) (now tA tP : ℤ)
    (dataA : List Repository) (pP : PRPayload)
    (frA : Except String (List Repository))
    (rf : Except String (List AdminRepo)) (pf : List PRFetchResult)
    (hA1 : sA.cache.repoData = some (Cached.good dataA))
    (hA2 : sA.cache.lastFetchTime = some tA)
    (hP1 : sP.cache.allPullRequestsData = some (Cached.good pP))
    (hP2 : sP.cache.prLastFetchTime = some tP) :
    ((fetchData sA now frA).didFetch = false ↔ now - tA < CACHE_DURATION) ∧
    (now - tA < CACHE_DURATION →
      (fetchData sA now frA).state.repositories = dataA ∧
      (fetchData sA now frA).state.cache = sA.cache) ∧
    ((fetchAllData sP true now rf pf).didFetch = false ↔
      now - tP < PR_CACHE_DURATION) ∧
    (now - tP < PR_CACHE_DURATION →
      (fetchAllData sP true now rf pf).state.pullRequests = pP.pullRequests ∧
      (fetchAllData sP true now rf pf).state.cache = sP.cache) := by
  rw [fetchData_good_entry sA now tA dataA frA hA1 hA2,
    fetchAllData_good_entry sP now tP pP rf pf hP1 hP2]
  by_cases hfA : now - tA < CACHE_DURATION <;>
    by_cases hfP : now - tP < PR_CACHE_DURATION <;>
    simp [hfA, hfP, doFetch_didFetch, adminFetch_didFetch]

/-- Witness for C1: fresh entries in both caches at `now = 0`. -/
theorem c1_cache_freshness_witness :
    (((fetchData
        { cache := { repoData := some (Cached.good [sampleRepoA]),
                     lastFetchTime := some 0 },
          repositories := [], error := none } 0 (Except.ok [])).didFetch = false ↔
        (0 : ℤ) - 0 < CACHE_DURATION) ∧
      ((0 : ℤ) - 0 < CACHE_DURATION →
        (fetchData
          { cache := { repoData := some (Cached.good [sampleRepoA]),
                       lastFetchTime := some 0 },
            repositories := [], error := none } 0 (Except.ok [])).state.repositories =
            [sampleRepoA] ∧
        (fetchData
          { cache := { repoData := some (Cached.good [sampleRepoA]),
                       lastFetchTime := some 0 },
            repositories := [], error := none } 0 (Except.ok [])).state.cache =
          { repoData := some (Cached.good [sampleRepoA]), lastFetchTime := some 0 }) ∧
      ((fetchAllData
          { cache := { allPullRequestsData := some (Cached.good ⟨[], []⟩),
                       prLastFetchTime := some 0 },
            pullRequests := [], repositories := [], error := none }
          true 0 (Except.ok []) []).didFetch = false ↔
        (0 : ℤ) - 0 < PR_CACHE_DURATION) ∧
      ((0 : ℤ) - 0 < PR_CACHE_DURATION →
        (fetchAllData
          { cache := { allPullRequestsData := some (Cached.good ⟨[], []⟩),
                       prLastFetchTime := some 0 },
            pullRequests := [], repositories := [], error := none }
          true 0 (Except.ok []) []).state.pullRequests = PRPayload.pullRequests ⟨[], []⟩ ∧
        (fetchAllData
          { cache := { allPullRequestsData := some (Cached.good ⟨[], []⟩),
                       prLastFetchTime := some 0 },
            pullRequests := [], repositories := [], error := none }
          true 0 (Except.ok []) []).state.cache =
          { allPullRequestsData := some (Cached.good ⟨[], []⟩),
            prLastFetchTime := some 0 })) :=
  c1_cache_freshness _ _ 0 0 0 [sampleRepoA] ⟨[], []⟩ (Except.ok [])
    (Except.ok []) [] rfl rfl rfl rfl

/-- A state whose repository cache holds an unparseable payload captured at
time 0. -/
def corruptAppState : AppState :=
  { cache := { repoData := some Cached.corrupt, lastFetchTime := some 0 },
    repositories := [], error := none }

/-- Counterexample to C2 as stated: at `now = 0` the corrupt payload is
fresh, `JSON.parse` throws, and the run surfaces the parse error with no
fresh fetch — it does not behave like a cache miss. -/
theorem c2_corrupt_cache_counterexample :
    (fetchData corruptAppState 0 (Except.ok [sampleRepoA])).didFetch = false ∧
    (fetchData corruptAppState 0 (Except.ok [sampleRepoA])).state.error =
      some jsonParseErrorMsg := by
  constructor <;> rfl

/-- C2 (amended): an unparseable payload behaves like a cache miss only
when the entry is stale (the payload is then never parsed and the run is
exactly the fall-through fetch); when the unparseable payload is within
the TTL window, the parse failure is caught and surfaced as the error
message, no fresh fetch occurs, and displayed data and cache are left
unchanged.  Both cache instances behave this way. -/
theorem c2_corrupt_cache_amended
    (sA : AppState) (sP : AdminState) (now tA tP : ℤ)
    (frA : Except String (List Repository))
    (rf : Except String (List AdminRepo)) (pf : List PRFetchResult)
    (hA1 : sA.cache.repoData = some Cached.corrupt)
    (hA2 : sA.cache.lastFetchTime = some tA)
    (hP1 : sP.cache.allPullRequestsData = some Cached.corrupt)
    (hP2 : sP.cache.prLastFetchTime = some tP) :
    (now - tA < CACHE_DURATION →
      fetchData sA now frA = ⟨{ sA with error := some jsonParseErrorMsg }, false⟩) ∧
    (¬ now - tA < CACHE_DURATION →
      fetchData sA now frA = doFetch { sA with error := none } now frA) ∧
    (now - tP < PR_CACHE_DURATION →
      fetchAllData sP true now rf pf =
        ⟨{ sP with error := some jsonParseErrorMsg }, false⟩) ∧
    (¬ now - tP < PR_CACHE_DURATION →
      fetchAllData sP true now rf pf =
        adminFetch { sP with error := none } now rf pf) := by
  rw [fetchData_corrupt_entry sA now tA frA hA1 hA2,
    fetchAllData_corrupt_entry sP now tP rf pf hP1 hP2]
  by_cases hfA : now - tA < CACHE_DURATION <;>
    by_cases hfP : now - tP < PR_CACHE_DURATION <;>
    simp [hfA, hfP]

/-- A state whose pull-request cache holds an unparseable payload captured
at time 0. -/
def corruptAdminState : AdminState :=
  { cache := { allPullRequestsData := some Cached.corrupt, prLastFetchTime := some 0 },
    pullRequests := [], repositories := [], error := none }

/-- Witness for the amended C2 at `now = 0` (fresh corrupt entries). -/
theorem c2_corrupt_cache_amended_witness :
    (((0 : ℤ) - 0 < CACHE_DURATION →
      fetchData corruptAppState 0 (Except.ok [sampleRepoA]) =
        ⟨{ corruptAppState with error := some jsonParseErrorMsg }, false⟩) ∧
    (¬ (0 : ℤ) - 0 < CACHE_DURATION →
      fetchData corruptAppState 0 (Except.ok [sampleRepoA]) =
        doFetch { corruptAppState with error := none } 0 (Except.ok [sampleRepoA])) ∧
    ((0 : ℤ) - 0 < PR_CACHE_DURATION →
      fetchAllData corruptAdminState true 0 (Except.ok []) [] =
        ⟨{ corruptAdminState with error := some jsonParseErrorMsg }, false⟩) ∧
    (¬ (0 : ℤ) - 0 < PR_CACHE_DURATION →
      fetchAllData corruptAdminState true 0 (Except.ok []) [] =
        adminFetch { corruptAdminState with error := none } 0 (Except.ok []) [])) :=
  c2_corrupt_cache_amended corruptAppState corruptAdminState 0 0 0
    (Except.ok [sampleRepoA]) (Except.ok []) [] rfl rfl rfl rfl

/-- A repository as listed by the admin dashboard, used in the C7
counterexample. -/
def c7AdminRepo : AdminRepo :=
  { id := 1, name := "r1", htmlUrl := "hu1" }

/-- An admin state with an empty cache, used in the C7 counterexample. -/
def c7AdminState : AdminState :=
  { cache := { allPullRequestsData := none, prLastFetchTime := none },
    pullRequests := [], repositories := [], error := none }

/-- Counterexample to C7 as stated: when the repository listing succeeds
but a pull-request listing rejects, the error is surfaced, yet the
displayed repository list has already changed — the failed refresh is not
atomic with respect to displayed state. -/
theorem c7_failed_refresh_counterexample :
    (fetchAllData c7AdminState true 0 (Except.ok [c7AdminRepo])
        [PRFetchResult.netError "network failure"]).state.error =
      some "network failure" ∧
    (fetchAllData c7AdminState true 0 (Except.ok [c7AdminRepo])
        [PRFetchResult.netError "network failure"]).state.repositories ≠
      c7AdminState.repositories := by
  constructor
  · rfl
  · decide

/-- C7 (amended): a failed top-level fetch surfaces its message and leaves
the persisted cache slots and displayed pull requests unchanged; the
displayed repository list is also unchanged except in the admin dashboard
when the repository listing succeeded and only the pull-request listing
failed, in which case the repository list has already been replaced by the
fresh listing. -/
theorem c7_failed_refresh_amended :
    (∀ (s : AppState) (now : ℤ) (msg : String),
      (fetchData s now (Except.error msg)).didFetch = true →
      (fetchData s now (Except.error msg)).state.error = some msg ∧
      (fetchData s now (Except.error msg)).state.cache = s.cache ∧
      (fetchData s now (Except.error msg)).state.repositories = s.repositories) ∧
    (∀ (s : AdminState) (envOk : Bool) (now : ℤ) (pf : List PRFetchResult)
        (msg : String),
      (fetchAllData s envOk now (Except.error msg) pf).didFetch = true →
      (fetchAllData s envOk now (Except.error msg) pf).state.error = some msg ∧
      (fetchAllData s envOk now (Except.error msg) pf).state.cache = s.cache ∧
      (fetchAllData s envOk now (Except.error msg) pf).state.pullRequests =
        s.pullRequests ∧
      (fetchAllData s envOk now (Except.error msg) pf).state.repositories =
        s.repositories) ∧
    (∀ (s : AdminState) (now : ℤ) (repos : List AdminRepo)
        (pf : List PRFetchResult) (msg : String),
      firstNetError (repos.zip pf) = some msg →
      (fetchAllData s true now (Except.ok repos) pf).didFetch = true →
      (fetchAllData s true now (Except.ok repos) pf).state.error = some msg ∧
      (fetchAllData s true now (Except.ok repos) pf).state.cache = s.cache ∧
      (fetchAllData s true now (Except.ok repos) pf).state.pullRequests =
        s.pullRequests ∧
      (fetchAllData s true now (Except.ok repos) pf).state.repositories = repos) := by
  refine ⟨?_, ?_, ?_⟩
  · intro s now msg h
    rw [fetchData_to_doFetch s now (Except.error msg) h]
    exact ⟨rfl, rfl, rfl⟩
  · intro s envOk now pf msg h
    rw [fetchAllData_to_adminFetch s envOk now (Except.error msg) pf h]
    exact ⟨rfl, rfl, rfl, rfl⟩
  · intro s now repos pf msg hnet h
    rw [fetchAllData_to_adminFetch s true now (Except.ok repos) pf h]
    simp [adminFetch, hnet]

/-- Witness for the amended C7: all three failure shapes at concrete
inputs. -/
theorem c7_failed_refresh_amended_witness :
    ((fetchData corruptAppState 1500001 (Except.error "boom")).didFetch = true →
      (fetchData corruptAppState 1500001 (Except.error "boom")).state.error =
        some "boom" ∧
      (fetchData corruptAppState 1500001 (Except.error "boom")).state.cache =
        corruptAppState.cache ∧
      (fetchData corruptAppState 1500001 (Except.error "boom")).state.repositories =
        corruptAppState.repositories) ∧
    ((fetchAllData c7AdminState true 0 (Except.error "down") []).didFetch = true →
      (fetchAllData c7AdminState true 0 (Except.error "down") []).state.error =
        some "down" ∧
      (fetchAllData c7AdminState true 0 (Except.error "down") []).state.cache =
        c7AdminState.cache ∧
      (fetchAllData c7AdminState true 0 (Except.error "down") []).state.pullRequests =
        c7AdminState.pullRequests ∧
      (fetchAllData c7AdminState true 0 (Except.error "down") []).state.repositories =
        c7AdminState.repositories) ∧
    (firstNetError ([c7AdminRepo].zip [PRFetchResult.netError "nf"]) = some "nf" →
      (fetchAllData c7AdminState true 0 (Except.ok [c7AdminRepo])
          [PRFetchResult.netError "nf"]).didFetch = true →
      (fetchAllData c7AdminState true 0 (Except.ok [c7AdminRepo])
          [PRFetchResult.netError "nf"]).state.error = some "nf" ∧
      (fetchAllData c7AdminState true 0 (Except.ok [c7AdminRepo])
          [PRFetchResult.netError "nf"]).state.cache = c7AdminState.cache ∧
      (fetchAllData c7AdminState true 0 (Except.ok [c7AdminRepo])
          [PRFetchResult.netError "nf"]).state.pullRequests =
        c7AdminState.pullRequests ∧
      (fetchAllData c7AdminState true 0 (Except.ok [c7AdminRepo])
          [PRFetchResult.netError "nf"]).state.repositories = [c7AdminRepo]) :=
  ⟨fun h => c7_failed_refresh_amended.1 corruptAppState 1500001 "boom" h,
   fun h => c7_failed_refresh_amended.2.1 c7AdminState true 0 [] "down" h,
   fun hnet h => c7_failed_refresh_amended.2.2 c7AdminState 0 [c7AdminRepo]
     [PRFetchResult.netError "nf"] "nf" hnet h⟩

/-! ## Claims about record assembly and the close-update -/

/-- C6: a failure of any per-repository auxiliary fetch degrades to an
empty/absent value (empty language map, absent commit, absent README
excerpt) and the overall repository-list fetch still succeeds, producing
one record per listed repository. -/
theorem c6_aux_failures_degrade (listing : List (RawRepo × AuxResults))
    (raw : RawRepo) (aux : AuxResults) :
    fetchOrganizationRepos (Except.ok listing) =
      Except.ok (listing.map (fun q => buildRepoRecord q.1 q.2)) ∧
    (listing.map (fun q => buildRepoRecord q.1 q.2)).length = listing.length ∧
    (aux.languages.failed = true → (buildRepoRecord raw aux).languages = []) ∧
    (aux.commits.failed = true → (buildRepoRecord raw aux).lastCommit = none) ∧
    (aux.readme.failed = true → (buildRepoRecord raw aux).readmeContent = none) := by
  refine ⟨rfl, by simp, ?_, ?_, ?_⟩
  · intro h
    cases hl : aux.languages <;>
      simp [buildRepoRecord, fetchRepoLanguages, FetchResult.failed, hl] at h ⊢
  · intro h
    cases hl : aux.commits <;>
      simp [buildRepoRecord, fetchLastCommit, FetchResult.failed, hl] at h ⊢
  · intro h
    cases hl : aux.readme <;>
      simp [buildRepoRecord, fetchReadmeContent, FetchResult.failed, hl] at h ⊢

/-- Auxiliary results in which all three per-repository fetches failed. -/
def failingAux : AuxResults :=
  { languages := FetchResult.httpError 500,
    commits := FetchResult.netError "timeout",
    readme := FetchResult.httpError 404 }

/-- A raw repository listing entry. -/
def sampleRawRepo : RawRepo :=
  { name := "n", fullName := "o/n", htmlUrl := "h", description := none }

/-- Witness for C6: one listed repository whose three auxiliary fetches all
fail still yields a record, with empty/absent auxiliary values. -/
theorem c6_aux_failures_degrade_witness :
    fetchOrganizationRepos (Except.ok [(sampleRawRepo, failingAux)]) =
      Except.ok [buildRepoRecord sampleRawRepo failingAux] ∧
    (buildRepoRecord sampleRawRepo failingAux).languages = [] ∧
    (buildRepoRecord sampleRawRepo failingAux).lastCommit = none ∧
    (buildRepoRecord sampleRawRepo failingAux).readmeContent = none :=
  ⟨(c6_aux_failures_degrade [(sampleRawRepo, failingAux)] sampleRawRepo failingAux).1,
   (c6_aux_failures_degrade [(sampleRawRepo, failingAux)] sampleRawRepo failingAux).2.2.1 rfl,
   (c6_aux_failures_degrade [(sampleRawRepo, failingAux)] sampleRawRepo failingAux).2.2.2.1 rfl,
   (c6_aux_failures_degrade [(sampleRawRepo, failingAux)] sampleRawRepo failingAux).2.2.2.2 rfl⟩

/-- Setting the state of an already-closed pull request is the identity. -/
theorem close_state_id (pr : PullRequest) (h : pr.state = "closed") :
    { pr with state := "closed" } = pr := by
  obtain ⟨i, n, t, u, c, hu, st, b, rn, ru⟩ := pr
  have h2 : st = "closed" := h
  rw [h2]

/-- The close-update leaves a list unchanged when every matching pull
request is already closed. -/
theorem closeUpdate_id_of_closed (prNumber : Nat) (repoName : String)
    (prs : List PullRequest)
    (h : ∀ pr ∈ prs, pr.number = prNumber → pr.repoName = repoName →
      pr.state = "closed") :
    closeUpdate prNumber repoName prs = prs := by
  induction prs with
  | nil => rfl
  | cons pr rest ih =>
      have hrest := ih (fun q hq hn hr => h q (List.mem_cons_of_mem pr hq) hn hr)
      simp only [closeUpdate, List.map_cons] at hrest ⊢
      rw [hrest]
      by_cases hm : pr.number = prNumber ∧ pr.repoName = repoName
      · rw [if_pos hm, close_state_id pr (h pr (List.mem_cons_self pr rest) hm.1 hm.2)]
      · rw [if_neg hm]

/-- The close-update is idempotent on any list. -/
theorem closeUpdate_idempotent (n : Nat) (r : String) (l : List PullRequest) :
    closeUpdate n r (closeUpdate n r l) = closeUpdate n r l := by
  unfold closeUpdate
  rw [List.map_map]
  refine List.map_congr_left ?_
  intro pr hpr
  by_cases hm : pr.number = n ∧ pr.repoName = r
  · simp [Function.comp, hm]
  · simp [Function.comp, hm]

/-- C8: the caller-side close-update is idempotent: applied to a list in
which every pull request matching the given number and repository name is
already closed it returns the same list, and applying it twice equals
applying it once, so re-closing an already-closed pull request cannot
fault the downstream cache or aggregation logic. -/
theorem c8_close_idempotent (prNumber : Nat) (repoName : String)
    (prs : List PullRequest)
    (h : ∀ pr ∈ prs, pr.number = prNumber → pr.repoName = repoName →
      pr.state = "closed") :
    closeUpdate prNumber repoName prs = prs ∧
    closeUpdate prNumber repoName (closeUpdate prNumber repoName prs) =
      closeUpdate prNumber repoName prs :=
  ⟨closeUpdate_id_of_closed prNumber repoName prs h,
   closeUpdate_idempotent prNumber repoName prs⟩

/-- A pull request that is already closed. -/
def closedPR : PullRequest :=
  { id := 1, number := 7, title := "t", userLogin := "u", createdAt := "c",
    htmlUrl := "h", state := "closed", body := "b", repoName := "r1",
    repoHtmlUrl := "hr" }

/-- Witness for C8 at a one-element list holding a closed pull request. -/
theorem c8_close_idempotent_witness :
    closeUpdate 7 "r1" [closedPR] = [closedPR] ∧
    closeUpdate 7 "r1" (closeUpdate 7 "r1" [closedPR]) =
      closeUpdate 7 "r1" [closedPR] :=
  c8_close_idempotent 7 "r1" [closedPR] (by decide)

/-- Running `deletePullRequest` on a successful response with a parseable cached
payload, as a single state equation. -/
theorem deletePullRequest_ok_good (s : AdminState) (n : Nat) (r : String)
    (p : PRPayload)
    (hc : s.cache.allPullRequestsData = some (Cached.good p)) :
    deletePullRequest s n r (Except.ok ()) =
      { s with
        pullRequests := closeUpdate n r s.pullRequests,
        cache := { s.cache with
          allPullRequestsData := some (Cached.good
            { p with pullRequests := closeUpdate n r s.pullRequests }) } } := by
  simp [deletePullRequest, hc]

/-- C10: on a successful close call with a parseable cached payload, the
local update touches only the `state` field of the matching pull
request(s); every other pull request, every other field, the repositories
list, the error slot and the cache timestamp are unchanged, and the cached
pull-request list of the payload is rewritten to exactly the updated list. -/
theorem c10_close_frame (s : AdminState) (prNumber : Nat) (repoName : String)
    (p : PRPayload)
    (hc : s.cache.allPullRequestsData = some (Cached.good p)) :
    (deletePullRequest s prNumber repoName (Except.ok ())).pullRequests =
      closeUpdate prNumber repoName s.pullRequests ∧
    (deletePullRequest s prNumber repoName (Except.ok ())).pullRequests.length =
      s.pullRequests.length ∧
    (∀ i (hi : i < s.pullRequests.length)
        (hi2 : i < (deletePullRequest s prNumber repoName (Except.ok ())).pullRequests.length),
      ((deletePullRequest s prNumber repoName (Except.ok ())).pullRequests.get ⟨i, hi2⟩) =
        (if (s.pullRequests.get ⟨i, hi⟩).number = prNumber ∧
            (s.pullRequests.get ⟨i, hi⟩).repoName = repoName
         then { s.pullRequests.get ⟨i, hi⟩ with state := "closed" }
         else s.pullRequests.get ⟨i, hi⟩)) ∧
    (deletePullRequest s prNumber repoName (Except.ok ())).repositories =
      s.repositories ∧
    (deletePullRequest s prNumber repoName (Except.ok ())).error = s.error ∧
    (deletePullRequest s prNumber repoName (Except.ok ())).cache.prLastFetchTime =
      s.cache.prLastFetchTime ∧
    (deletePullRequest s prNumber repoName (Except.ok ())).cache.allPullRequestsData =
      some (Cached.good
        { p with pullRequests := closeUpdate prNumber repoName s.pullRequests }) := by
  rw [deletePullRequest_ok_good s prNumber repoName p hc]
  refine ⟨rfl, by simp [closeUpdate], ?_, rfl, rfl, rfl, rfl⟩
  intro i hi hi2
  simp [closeUpdate, List.get_eq_getElem, List.getElem_map]

/-- A pull request that is still open. -/
def openPR : PullRequest :=
  { id := 2, number := 7, title := "t2", userLogin := "u2", createdAt := "c2",
    htmlUrl := "h2", state := "open", body := "b2", repoName := "r1",
    repoHtmlUrl := "hr" }

/-- An admin state with a parseable cached payload, one open pull request
and one repository. -/
def c10State : AdminState :=
  { cache := { allPullRequestsData :=
                 some (Cached.good ⟨[openPR], [c7AdminRepo]⟩),
               prLastFetchTime := some 0 },
    pullRequests := [openPR], repositories := [c7AdminRepo], error := none }

/-- Witness for C10 at a concrete state with one open pull request. -/
theorem c10_close_frame_witness :
    (deletePullRequest c10State 7 "r1" (Except.ok ())).pullRequests =
      closeUpdate 7 "r1" c10State.pullRequests ∧
    (deletePullRequest c10State 7 "r1" (Except.ok ())).pullRequests.length =
      c10State.pullRequests.length ∧
    (∀ i (hi : i < c10State.pullRequests.length)
        (hi2 : i < (deletePullRequest c10State 7 "r1" (Except.ok ())).pullRequests.length),
      ((deletePullRequest c10State 7 "r1" (Except.ok ())).pullRequests.get ⟨i, hi2⟩) =
        (if (c10State.pullRequests.get ⟨i, hi⟩).number = 7 ∧
            (c10State.pullRequests.get ⟨i, hi⟩).repoName = "r1"
         then { c10State.pullRequests.get ⟨i, hi⟩ with state := "closed" }
         else c10State.pullRequests.get ⟨i, hi⟩)) ∧
    (deletePullRequest c10State 7 "r1" (Except.ok ())).repositories =
      c10State.repositories ∧
    (deletePullRequest c10State 7 "r1" (Except.ok ())).error = c10State.error ∧
    (deletePullRequest c10State 7 "r1" (Except.ok ())).cache.prLastFetchTime =
      c10State.cache.prLastFetchTime ∧
    (deletePullRequest c10State 7 "r1" (Except.ok ())).cache.allPullRequestsData =
      some (Cached.good
        { pullRequests := closeUpdate 7 "r1" c10State.pullRequests,
          repositories := [c7AdminRepo] }) :=
  c10_close_frame c10State 7 "r1" ⟨[openPR], [c7AdminRepo]⟩ rfl

end Dashboard
